import Mathlib

/-!
Verification of the transit-tracker component
(src/components/transit_tracker/transit_tracker.{h,cpp}).

Strings from the C++ code (`std::string`) are embedded as `List Char`.
Colors (`esphome::Color` built from a `uint32_t` color code, which keeps
only the low three bytes r/g/b) are embedded as `Nat` values below `2 ^ 24`.
Timestamps (`time_t`) are embedded as `Int`.
-/

namespace TransitTracker

/-- Embeds `esphome::Color(uint32_t colorcode)`: only the low 24 bits
(r, g, b bytes) of the color code are kept. -/
def colorOf (n : Nat) : Nat := n % (2 ^ 24)

/-- Hexadecimal value of one character, as used by `std::stoul(s, nullptr, 16)`. -/
def hexDigitVal (c : Char) : Option Nat :=
  if '0' ≤ c ∧ c ≤ '9' then some (c.toNat - '0'.toNat)
  else if 'a' ≤ c ∧ c ≤ 'f' then some (c.toNat - 'a'.toNat + 10)
  else if 'A' ≤ c ∧ c ≤ 'F' then some (c.toNat - 'A'.toNat + 10)
  else none

/-- Embeds `std::stoul(s, nullptr, 16)` on a well-formed input: reads
hexadecimal digits from the front of the string and stops at the first
non-digit character. -/
def parseHexNat : List Char → Nat :=
  go 0
where
  go (acc : Nat) : List Char → Nat
    | [] => acc
    | c :: rest =>
      match hexDigitVal c with
      | some d => go (16 * acc + d) rest
      | none => acc

/-- Association-list lookup, embedding `std::map::find` (C++ key order is
irrelevant to the claims; the list carries the map's iteration order). -/
def lookupA {α : Type} : List (List Char × α) → List Char → Option α
  | [], _ => none
  | (k, v) :: rest, key => if k = key then some v else lookupA rest key

/-- Embeds `std::map` subscript-assignment `m[k] = v`: replaces the value of
an existing key, otherwise adds the binding. -/
def mapInsert {α : Type} : List (List Char × α) → List Char → α → List (List Char × α)
  | [], k, v => [(k, v)]
  | (k0, v0) :: rest, k, v =>
    if k0 = k then (k, v) :: rest else (k0, v0) :: mapInsert rest k v

/-- `isPre p h` embeds "the string `h` starts with `p`". -/
def isPre : List Char → List Char → Bool
  | [], _ => true
  | _ :: _, [] => false
  | a :: as, b :: bs => if a = b then isPre as bs else false

/-- Embeds `std::string::find(pattern)`: index of the first occurrence of
`p` in `h`, or `none` (`std::string::npos`) when there is no occurrence. -/
def findSub (h p : List Char) : Option Nat :=
  match h with
  | [] => if isPre p [] then some 0 else none
  | c :: t => if isPre p (c :: t) then some 0 else (findSub t p).map (· + 1)

/-- Embeds the body of the abbreviation loop in `on_ws_message_`
(transit_tracker.cpp lines 163-170): `headsign.find(from)` followed by
`headsign.replace(pos, from.length(), to)` when found. -/
def replaceOnce (h p t : List Char) : List Char :=
  match findSub h p with
  | none => h
  | some i => h.take i ++ t ++ h.drop (i + p.length)

/-- Embeds the abbreviation loop of `on_ws_message_`: each table entry is
applied by one find/replace against the current (already substituted)
headsign, in table iteration order. -/
def applyAbbreviations (abbrs : List (List Char × List Char)) (h : List Char) : List Char :=
  abbrs.foldl (fun acc ab => replaceOnce acc ab.1 ab.2) h

/-- One entry of `route_styles_` (struct `RouteStyle` in transit_tracker.h). -/
structure RouteStyle where
  name : List Char
  color : Nat
deriving DecidableEq, Repr

/-- One decoded `Trip` record (struct `Trip` pushed into
`schedule_state_.trips`). -/
structure Trip where
  stop_id : List Char
  route_id : List Char
  route_name : List Char
  route_color : Nat
  headsign : List Char
  arrival_time : Int
  departure_time : Int
  is_realtime : Bool
deriving DecidableEq, Repr

/-- One trip entry of a decoded `"schedule"` JSON payload, with the fields
read by `on_ws_message_`. `routeColor = none` embeds
`trip["routeColor"].isNull()`. -/
structure TripJson where
  headsign : List Char
  stopId : List Char
  routeId : List Char
  routeName : List Char
  routeColor : Option (List Char)
  arrivalTime : Int
  departureTime : Int
  isRealtime : Bool
deriving DecidableEq, Repr

/-- Decoder configuration: `abbreviations_`, `route_styles_` and
`default_route_color_` of `TransitTracker`. -/
structure ScheduleConfig where
  abbreviations : List (List Char × List Char)
  routeStyles : List (List Char × RouteStyle)
  defaultRouteColor : Nat
deriving DecidableEq, Repr

/-- Embeds the per-trip decoding of `on_ws_message_`
(transit_tracker.cpp lines 160-195): abbreviation substitution on the
headsign, then route styling with precedence
style table > feed-supplied hex color > configured default. -/
def decodeTrip (cfg : ScheduleConfig) (tj : TripJson) : Trip :=
  let headsign := applyAbbreviations cfg.abbreviations tj.headsign
  let styled :=
    match lookupA cfg.routeStyles tj.routeId with
    | some st => (st.color, st.name)
    | none =>
      match tj.routeColor with
      | some s => (colorOf (parseHexNat s), tj.routeName)
      | none => (cfg.defaultRouteColor, tj.routeName)
  { stop_id := tj.stopId
    route_id := tj.routeId
    route_name := styled.2
    route_color := styled.1
    headsign := headsign
    arrival_time := tj.arrivalTime
    departure_time := tj.departureTime
    is_realtime := tj.isRealtime }

/-- The part of the component state touched by `on_ws_message_`. -/
structure MsgState where
  trips : List Trip
  errorStatus : Option String
  lastHeartbeat : Nat
deriving DecidableEq, Repr

/-- An inbound websocket message as seen by `on_ws_message_` after the JSON
layer: allocation failure of the parse document, JSON parse failure
(including an oversized payload), a heartbeat event, a schedule event, or
any other `event` discriminant. -/
inductive InboundMessage where
  | allocFail
  | parseFail
  | heartbeat
  | otherEvent
  | schedule (trips : List TripJson)
deriving DecidableEq, Repr

def parseErrMsg : String := "Failed to parse schedule data"

def noPsramMsg : String := "No PSRAM for JSON doc"

/-- Embeds `TransitTracker::on_ws_message_` (transit_tracker.cpp lines
109-201): error statuses on allocation/parse/unknown-event failures, the
heartbeat update, and the wholesale rebuild of `schedule_state_.trips`
from a `"schedule"` payload. -/
def on_ws_message (cfg : ScheduleConfig) (now : Nat) (st : MsgState)
    (msg : InboundMessage) : MsgState :=
  match msg with
  | .allocFail => { st with errorStatus := some noPsramMsg }
  | .parseFail => { st with errorStatus := some parseErrMsg }
  | .heartbeat => { st with lastHeartbeat := now }
  | .otherEvent => { st with errorStatus := some parseErrMsg }
  | .schedule ts => { st with trips := ts.map (decodeTrip cfg) }

/-- Concrete decoder configuration used by witnesses: no abbreviations, no
route styles, the source's default route color `Color(0x028e51)`. -/
def cfgW : ScheduleConfig :=
  { abbreviations := [], routeStyles := [], defaultRouteColor := colorOf 0x028e51 }

/-- Concrete message-handler state used by witnesses. -/
def stW : MsgState := { trips := [], errorStatus := none, lastHeartbeat := 0 }

/-- Concrete trip entry used by witnesses: no feed-supplied color. -/
def tjW : TripJson :=
  { headsign := [], stopId := [], routeId := ['r'], routeName := ['R'],
    routeColor := none, arrivalTime := 0, departureTime := 0, isRealtime := false }

theorem findSub_some_isPre (h p : List Char) (i : Nat) (hf : findSub h p = some i) :
    isPre p (h.drop i) = true ∧ ∀ j, j < i → isPre p (h.drop j) = false := by
  induction h generalizing i with
  | nil =>
    unfold findSub at hf
    split at hf
    · rename_i hp
      cases hf
      exact ⟨hp, fun j hj => absurd hj (Nat.not_lt_zero j)⟩
    · exact absurd hf (by simp)
  | cons c t ih =>
    unfold findSub at hf
    split at hf
    · rename_i hp
      cases hf
      exact ⟨hp, fun j hj => absurd hj (Nat.not_lt_zero j)⟩
    · rename_i hp
      cases hft : findSub t p with
      | none => rw [hft] at hf; exact absurd hf (by simp)
      | some i2 =>
        rw [hft] at hf
        injection hf with hf
        subst hf
        obtain ⟨h1, h2⟩ := ih i2 hft
        refine ⟨h1, fun j hj => ?_⟩
        cases j with
        | zero => simpa using Bool.eq_false_iff.mpr hp
        | succ j2 => exact h2 j2 (Nat.lt_of_succ_lt_succ hj)

theorem findSub_none_no_occurrence (h p : List Char) (hf : findSub h p = none) :
    ∀ j, isPre p (h.drop j) = false := by
  induction h with
  | nil =>
    unfold findSub at hf
    split at hf
    · exact absurd hf (by simp)
    · rename_i hp
      intro j
      simpa [List.drop_nil] using Bool.eq_false_iff.mpr hp
  | cons c t ih =>
    unfold findSub at hf
    split at hf
    · exact absurd hf (by simp)
    · rename_i hp
      intro j
      cases j with
      | zero => simpa using Bool.eq_false_iff.mpr hp
      | succ j2 =>
        cases hft : findSub t p with
        | none => exact ih hft j2
        | some i2 => rw [hft] at hf; exact absurd hf (by simp)

/-- C3 counterexample: with the abbreviation table `A -> B`, `B -> C` (in
table order) and the original headsign `"A"`, the decoded headsign is
`"C"`, although `"B"` has no occurrence in the original headsign: the
second entry matched text introduced by the first entry's substitution,
contradicting the claim. -/
theorem abbreviation_matches_substituted_text :
    applyAbbreviations [(['A'], ['B']), (['B'], ['C'])] ['A'] = ['C']
    ∧ findSub ['A'] ['B'] = none
    ∧ applyAbbreviations [(['A'], ['B'])] ['A'] = ['B'] :=
  ⟨by decide, by decide, by decide⟩

/-- C3 (amended): each configured abbreviation entry is applied at most once
(first textual match only, in table order, no iterative re-scan of the
result of its own substitution), but an entry is matched against the
current, possibly already-substituted string, so it may match text
introduced by an earlier entry's substitution. -/
theorem abbreviation_single_replace_per_entry
    (abbrs : List (List Char × List Char)) (p t h : List Char) :
    applyAbbreviations ((p, t) :: abbrs) h = applyAbbreviations abbrs (replaceOnce h p t)
    ∧ (findSub h p = none → replaceOnce h p t = h)
    ∧ (∀ i, findSub h p = some i →
        isPre p (h.drop i) = true
        ∧ (∀ j, j < i → isPre p (h.drop j) = false)
        ∧ replaceOnce h p t = h.take i ++ t ++ h.drop (i + p.length)) := by
  refine ⟨rfl, ?_, ?_⟩
  · intro hn
    simp [replaceOnce, hn]
  · intro i hi
    obtain ⟨h1, h2⟩ := findSub_some_isPre h p i hi
    exact ⟨h1, h2, by simp [replaceOnce, hi]⟩

theorem abbreviation_single_replace_per_entry_witness :
    replaceOnce ['x'] ['a'] ['b'] = ['x'] :=
  (abbreviation_single_replace_per_entry [] ['a'] ['b'] ['x']).2.1 (by decide)

/-- C2: after decoding a `"schedule"` payload, the cache holds exactly the
decoded trips, and every decoded trip's `route_color` is resolved with the
precedence: style-table color when `route_id` has a configured style (which
also overrides `route_name`), else the base-16-parsed feed-supplied
`routeColor` when present, else the configured default route color. -/
theorem route_color_precedence (cfg : ScheduleConfig) (now : Nat) (st : MsgState)
    (ts : List TripJson) :
    (on_ws_message cfg now st (.schedule ts)).trips = ts.map (decodeTrip cfg)
    ∧ ∀ tj : TripJson,
        (∀ style, lookupA cfg.routeStyles tj.routeId = some style →
          (decodeTrip cfg tj).route_color = style.color
          ∧ (decodeTrip cfg tj).route_name = style.name)
        ∧ (lookupA cfg.routeStyles tj.routeId = none →
            ∀ s, tj.routeColor = some s →
              (decodeTrip cfg tj).route_color = colorOf (parseHexNat s))
        ∧ (lookupA cfg.routeStyles tj.routeId = none → tj.routeColor = none →
            (decodeTrip cfg tj).route_color = cfg.defaultRouteColor) := by
  refine ⟨rfl, fun tj => ⟨?_, ?_, ?_⟩⟩
  · intro style hs
    constructor <;> simp [decodeTrip, hs]
  · intro hn s hs
    simp [decodeTrip, hn, hs]
  · intro hn hs
    simp [decodeTrip, hn, hs]

theorem route_color_precedence_witness :
    (decodeTrip cfgW tjW).route_color = cfgW.defaultRouteColor :=
  ((route_color_precedence cfgW 0 stW []).2 tjW).2.2 rfl rfl

/-- C4: a message whose payload fails to decode as JSON (including an
oversized payload or a failed parse-buffer allocation) or whose event
discriminant is neither "heartbeat" nor "schedule" sets a persistent error
status and leaves the trip cache exactly as it was. -/
theorem failing_message_no_cache_change (cfg : ScheduleConfig) (now : Nat)
    (st : MsgState) (msg : InboundMessage)
    (h : msg = .parseFail ∨ msg = .otherEvent ∨ msg = .allocFail) :
    (on_ws_message cfg now st msg).trips = st.trips
    ∧ ∃ e, (on_ws_message cfg now st msg).errorStatus = some e := by
  rcases h with h | h | h <;> subst h
  · exact ⟨rfl, parseErrMsg, rfl⟩
  · exact ⟨rfl, parseErrMsg, rfl⟩
  · exact ⟨rfl, noPsramMsg, rfl⟩

theorem failing_message_no_cache_change_witness :
    (on_ws_message cfgW 0 stW .parseFail).trips = stW.trips :=
  (failing_message_no_cache_change cfgW 0 stW .parseFail (Or.inl rfl)).1

/-- The part of the component state touched by `connect_ws_`
(transit_tracker.cpp lines 263-316). `wsAvailable` embeds
`ws_client_.available(true)`. -/
structure ConnState where
  baseUrl : List Char
  fullyClosed : Bool
  wsAvailable : Bool
  connectionAttempts : Nat
  lastHeartbeat : Nat
  hasEverConnected : Bool
  errorStatus : Option String
deriving DecidableEq, Repr

/-- The externally visible action taken by one call to `connect_ws_`:
an early return, a scheduled retry (`set_timeout("reconnect", delay, ...)`),
a device reboot (`App.reboot()`, which does not return, so no retry is
scheduled after it), or a successful connection. -/
inductive ConnectOutcome where
  | noop
  | retryScheduled (delay : Nat)
  | rebooted
  | connected
deriving DecidableEq, Repr

def connFailedMsg : String := "Failed to connect to WebSocket server"

/-- Embeds `TransitTracker::connect_ws_` (transit_tracker.cpp lines
263-316). `networkUp` embeds `esphome::network::is_connected()` and
`connectSucceeds` the result of `ws_client_.connect(...)`; the attempt
fails whenever either is false (the network check guards the connect
call). -/
def connect_ws (st : ConnState) (networkUp connectSucceeds : Bool) :
    ConnState × ConnectOutcome :=
  if st.baseUrl = [] then (st, .noop)
  else if st.fullyClosed then (st, .noop)
  else if st.wsAvailable then (st, .noop)
  else if networkUp && connectSucceeds then
    ({ st with lastHeartbeat := 0, hasEverConnected := true,
               connectionAttempts := 0, errorStatus := none }, .connected)
  else
    ({ st with lastHeartbeat := 0,
               connectionAttempts := st.connectionAttempts + 1,
               errorStatus := if 3 ≤ st.connectionAttempts + 1 then some connFailedMsg
                              else st.errorStatus },
     if 15 ≤ st.connectionAttempts + 1 then ConnectOutcome.rebooted
     else ConnectOutcome.retryScheduled (min 15000 ((st.connectionAttempts + 1) * 5000)))

/-- The trace of outcomes of `n` consecutive failed connection attempts
starting from `st`: each attempt runs `connect_ws` with the network up and
the transport connect failing; a reboot ends the run (the process
restarts). -/
def failureTrace (st : ConnState) : Nat → List ConnectOutcome
  | 0 => []
  | n + 1 =>
    if (connect_ws st true false).2 = ConnectOutcome.rebooted
    then [ConnectOutcome.rebooted]
    else (connect_ws st true false).2 :: failureTrace (connect_ws st true false).1 n

/-- Number of reboot outcomes in a trace. -/
def rebootCount : List ConnectOutcome → Nat
  | [] => 0
  | o :: rest => (if o = ConnectOutcome.rebooted then 1 else 0) + rebootCount rest

/-- The outcome trace `failureTrace` produces when the attempt counter
starts at `a`: retries with delay `min 15000 ((a+k) * 5000)` while the
counter stays below 15, then one final reboot. -/
def expectedTrace : Nat → Nat → List ConnectOutcome
  | _, 0 => []
  | a, n + 1 =>
    if 15 ≤ a + 1 then [ConnectOutcome.rebooted]
    else ConnectOutcome.retryScheduled (min 15000 ((a + 1) * 5000)) :: expectedTrace (a + 1) n

theorem connect_ws_fail (st : ConnState) (networkUp connectSucceeds : Bool)
    (h1 : ¬st.baseUrl = []) (h2 : st.fullyClosed = false) (h3 : st.wsAvailable = false)
    (hf : (networkUp && connectSucceeds) = false) :
    connect_ws st networkUp connectSucceeds =
      ({ st with lastHeartbeat := 0,
                 connectionAttempts := st.connectionAttempts + 1,
                 errorStatus := if 3 ≤ st.connectionAttempts + 1 then some connFailedMsg
                                else st.errorStatus },
       if 15 ≤ st.connectionAttempts + 1 then ConnectOutcome.rebooted
       else ConnectOutcome.retryScheduled (min 15000 ((st.connectionAttempts + 1) * 5000))) := by
  simp [connect_ws, h1, h2, h3, hf]

theorem failureTrace_eq_expected (n : Nat) : ∀ (st : ConnState),
    ¬st.baseUrl = [] → st.fullyClosed = false → st.wsAvailable = false →
    failureTrace st n = expectedTrace st.connectionAttempts n := by
  induction n with
  | zero => intro st _ _ _; rfl
  | succ n ih =>
    intro st h1 h2 h3
    rw [failureTrace, connect_ws_fail st true false h1 h2 h3 rfl, expectedTrace]
    by_cases h15 : 15 ≤ st.connectionAttempts + 1
    · simp [h15]
    · simp only [if_neg h15]
      have hne : ¬(ConnectOutcome.retryScheduled (min 15000 ((st.connectionAttempts + 1) * 5000))
          = ConnectOutcome.rebooted) := by simp
      rw [if_neg hne]
      congr 1
      exact ih _ h1 h2 h3

theorem expectedTrace_rebootCount (n : Nat) : ∀ (a : Nat), a ≤ 14 →
    rebootCount (expectedTrace a n) = if 15 ≤ a + n then 1 else 0 := by
  induction n with
  | zero =>
    intro a ha
    rw [expectedTrace]
    simp only [rebootCount]
    split <;> omega
  | succ n ih =>
    intro a ha
    rw [expectedTrace]
    by_cases h15 : 15 ≤ a + 1
    · have : 15 ≤ a + (n + 1) := by omega
      simp [h15, rebootCount, this]
    · rw [if_neg h15]
      have ha2 : a + 1 ≤ 14 := by omega
      rw [rebootCount, ih (a + 1) ha2]
      have hne : ¬(ConnectOutcome.retryScheduled (min 15000 ((a + 1) * 5000))
          = ConnectOutcome.rebooted) := by simp
      rw [if_neg hne]
      have harith : a + 1 + n = a + (n + 1) := by omega
      rw [harith, Nat.zero_add]

theorem expectedTrace_reboot_position (n : Nat) : ∀ (a : Nat), a ≤ 14 → 15 ≤ a + n →
    (expectedTrace a n)[14 - a]? = some ConnectOutcome.rebooted := by
  induction n with
  | zero => intro a ha h15; omega
  | succ n ih =>
    intro a ha h15
    rw [expectedTrace]
    by_cases hcap : 15 ≤ a + 1
    · have : a = 14 := by omega
      subst this
      simp [hcap]
    · rw [if_neg hcap]
      have ha2 : a + 1 ≤ 14 := by omega
      have h15b : 15 ≤ a + 1 + n := by omega
      have hidx : 14 - a = (14 - (a + 1)) + 1 := by omega
      rw [hidx, List.getElem?_cons_succ]
      exact ih (a + 1) ha2 h15b


/-- Concrete connection state used by witnesses and counterexamples: base
URL configured, not fully closed, not connected, counter at 0. -/
def st0 : ConnState :=
  { baseUrl := ['u'], fullyClosed := false, wsAvailable := false,
    connectionAttempts := 0, lastHeartbeat := 0, hasEverConnected := false,
    errorStatus := none }

/-- `st0` after 14 consecutive failed attempts: counter at 14. -/
def st14 : ConnState := { st0 with connectionAttempts := 14 }

/-- `st0` with the sticky fully-closed flag latched. -/
def stClosed : ConnState := { st0 with fullyClosed := true }

/-- C5 counterexample: on the 15th consecutive failed attempt (counter at
14 before the call) the handler reboots the device (`App.reboot()` does
not return) and schedules no retry, so the retry delay after that attempt
is not the claimed capped 15000 ms. -/
theorem fifteenth_failure_no_capped_retry :
    (connect_ws st14 true false).2 = ConnectOutcome.rebooted
    ∧ (connect_ws st14 true false).2 ≠ ConnectOutcome.retryScheduled 15000 :=
  ⟨by decide, by decide⟩

/-- C5 (amended): the retry delay scheduled after failed attempts 1, 2, 3
is 5000, 10000, 15000 ms, the delay after attempts 4 through 14 is capped
at 15000 ms (min(15000, attempt_count * 5000)), the 15th consecutive
failure reboots the device instead of scheduling a retry, and the attempt
counter is reset to 0 immediately on any successful connect. -/
theorem backoff_delay_schedule (st : ConnState) (networkUp connectSucceeds : Bool)
    (h1 : ¬st.baseUrl = []) (h2 : st.fullyClosed = false) (h3 : st.wsAvailable = false) :
    ((networkUp && connectSucceeds) = false →
       (connect_ws st networkUp connectSucceeds).1.connectionAttempts
           = st.connectionAttempts + 1
       ∧ (st.connectionAttempts + 1 ≤ 14 →
           (connect_ws st networkUp connectSucceeds).2
             = ConnectOutcome.retryScheduled (min 15000 ((st.connectionAttempts + 1) * 5000)))
       ∧ (st.connectionAttempts = 0 →
           (connect_ws st networkUp connectSucceeds).2 = ConnectOutcome.retryScheduled 5000)
       ∧ (st.connectionAttempts = 1 →
           (connect_ws st networkUp connectSucceeds).2 = ConnectOutcome.retryScheduled 10000)
       ∧ (st.connectionAttempts = 2 →
           (connect_ws st networkUp connectSucceeds).2 = ConnectOutcome.retryScheduled 15000)
       ∧ (3 ≤ st.connectionAttempts → st.connectionAttempts ≤ 13 →
           (connect_ws st networkUp connectSucceeds).2 = ConnectOutcome.retryScheduled 15000)
       ∧ (14 ≤ st.connectionAttempts →
           (connect_ws st networkUp connectSucceeds).2 = ConnectOutcome.rebooted))
    ∧ ((networkUp && connectSucceeds) = true →
       (connect_ws st networkUp connectSucceeds).1.connectionAttempts = 0
       ∧ (connect_ws st networkUp connectSucceeds).2 = ConnectOutcome.connected) := by
  constructor
  · intro hf
    rw [connect_ws_fail st networkUp connectSucceeds h1 h2 h3 hf]
    refine ⟨rfl, ?_, ?_, ?_, ?_, ?_, ?_⟩
    · intro hle
      rw [if_neg (show ¬15 ≤ st.connectionAttempts + 1 by omega)]
    · intro h0
      rw [h0]
      norm_num
    · intro h0
      rw [h0]
      norm_num
    · intro h0
      rw [h0]
      norm_num
    · intro ha hb
      rw [if_neg (show ¬15 ≤ st.connectionAttempts + 1 by omega)]
      have hm : min 15000 ((st.connectionAttempts + 1) * 5000) = 15000 := by
        rw [Nat.min_def]
        split <;> omega
      rw [hm]
    · intro ha
      rw [if_pos (show 15 ≤ st.connectionAttempts + 1 by omega)]
  · intro hs
    simp [connect_ws, h1, h2, h3, hs]

theorem backoff_delay_schedule_witness :
    (connect_ws st0 true false).2 = ConnectOutcome.retryScheduled 5000 :=
  ((backoff_delay_schedule st0 true false (by decide) rfl rfl).1 rfl).2.2.1 rfl

/-- C6: starting from a fresh counter, in a run of consecutive failed
connection attempts the fatal restart (device reboot) fires exactly once,
at the 15th failure: the trace of `n` consecutive failed attempts contains
no reboot when `n < 15` and exactly one reboot, as its 15th entry, for
every `n ≥ 15` (the reboot ends the run, so it never repeats). -/
theorem reboot_exactly_once_at_15 (st : ConnState)
    (h1 : ¬st.baseUrl = []) (h2 : st.fullyClosed = false) (h3 : st.wsAvailable = false)
    (h0 : st.connectionAttempts = 0) (n : Nat) :
    rebootCount (failureTrace st n) = (if 15 ≤ n then 1 else 0)
    ∧ (15 ≤ n → (failureTrace st n)[14]? = some ConnectOutcome.rebooted) := by
  have he := failureTrace_eq_expected n st h1 h2 h3
  rw [h0] at he
  constructor
  · rw [he, expectedTrace_rebootCount n 0 (by omega)]
    norm_num
  · intro h15
    rw [he]
    have hp := expectedTrace_reboot_position n 0 (by omega) (by omega)
    simpa using hp

theorem reboot_exactly_once_at_15_witness :
    rebootCount (failureTrace st0 15) = 1 := by
  have h := (reboot_exactly_once_at_15 st0 (by decide) rfl rfl rfl 15).1
  simpa using h

/-- C7 counterexample: with a base URL configured, not fully closed and not
already connected, but the network link down, `connect_ws_` is not a
no-op: it increments the attempt counter and schedules a 5000 ms retry. -/
theorem no_network_link_not_noop :
    (connect_ws st0 false true).1.connectionAttempts = 1
    ∧ (connect_ws st0 false true).2 = ConnectOutcome.retryScheduled 5000 :=
  ⟨by decide, by decide⟩

/-- C7 (amended): `connect_ws_` is a no-op — the state is returned
unchanged and nothing is scheduled — when the fully-closed flag is set,
when the client is already connected, or when no base URL is configured;
but when no network link is available (and none of those guards hold) the
call is treated as a failed connection attempt: the counter is
incremented and a retry (or, at the 15th failure, a reboot) follows. -/
theorem connect_noop_guards (st : ConnState) (networkUp connectSucceeds : Bool) :
    ((st.fullyClosed = true ∨ st.wsAvailable = true ∨ st.baseUrl = []) →
       connect_ws st networkUp connectSucceeds = (st, ConnectOutcome.noop))
    ∧ (¬st.baseUrl = [] → st.fullyClosed = false → st.wsAvailable = false →
       networkUp = false →
       (connect_ws st networkUp connectSucceeds).1.connectionAttempts
           = st.connectionAttempts + 1
       ∧ (connect_ws st networkUp connectSucceeds).2 ≠ ConnectOutcome.noop
       ∧ (connect_ws st networkUp connectSucceeds).2 ≠ ConnectOutcome.connected) := by
  constructor
  · intro h
    rcases h with h | h | h
    · by_cases hb : st.baseUrl = [] <;> simp [connect_ws, hb, h]
    · by_cases hb : st.baseUrl = [] <;> by_cases hfc : st.fullyClosed = true <;>
        simp [connect_ws, hb, hfc, h]
    · simp [connect_ws, h]
  · intro h1 h2 h3 hn
    have hf : (networkUp && connectSucceeds) = false := by rw [hn]; rfl
    rw [connect_ws_fail st networkUp connectSucceeds h1 h2 h3 hf]
    refine ⟨rfl, ?_, ?_⟩ <;>
      by_cases h15 : 15 ≤ st.connectionAttempts + 1 <;> simp [h15]

theorem connect_noop_guards_witness :
    connect_ws stClosed true true = (stClosed, ConnectOutcome.noop) :=
  (connect_noop_guards stClosed true true).1 (Or.inl rfl)

/-- Embeds the body of the `"check_stale_trips"` interval callback
registered in `setup` (transit_tracker.cpp lines 42-67). `wsAvailable`
embeds `ws_client_.available()`, `rtcNow = none` embeds an invalid RTC
time (`!now.is_valid()`). The result is whether `reconnect()` is called
on this watchdog tick. -/
def staleCheckFires (wsAvailable : Bool) (trips : List Trip) (rtcNow : Option Int) : Bool :=
  if wsAvailable && !trips.isEmpty then
    match rtcNow with
    | some now => trips.any (fun trip => 60 < now - trip.departure_time)
    | none => false
  else false

/-- A cached trip whose departure time (0) is far in the past. -/
def tripOld : Trip :=
  { stop_id := ['s'], route_id := ['r'], route_name := ['R'], route_color := 0,
    headsign := [], arrival_time := 0, departure_time := 0, is_realtime := false }

/-- C8 counterexample: a non-empty cache containing a trip whose departure
time is more than 60 seconds in the past does not trigger a reconnect when
the websocket client is not available — the callback's outer guard
requires `ws_client_.available()`, which the claim omits. -/
theorem stale_trips_no_reconnect_when_unavailable :
    staleCheckFires false [tripOld] (some 1000) = false
    ∧ [tripOld] ≠ ([] : List Trip)
    ∧ 60 < (1000 : Int) - tripOld.departure_time :=
  ⟨by decide, by decide, by decide⟩

/-- C8 (amended): on a watchdog tick, a forced reconnect fires iff the
websocket client is available, the trip cache is non-empty, the RTC time
is valid, and some cached trip's departure time is more than 60 seconds
before the current trusted time; in particular no reconnect fires when
every cached trip is within 60 seconds of the current time. -/
theorem stale_watchdog_characterization (wsAvailable : Bool) (trips : List Trip)
    (rtcNow : Option Int) :
    staleCheckFires wsAvailable trips rtcNow = true ↔
      (wsAvailable = true ∧ trips ≠ []
       ∧ ∃ now, rtcNow = some now ∧ ∃ trip ∈ trips, 60 < now - trip.departure_time) := by
  cases rtcNow with
  | none => cases wsAvailable <;> simp [staleCheckFires]
  | some now =>
    cases wsAvailable <;>
      simp [staleCheckFires, List.any_eq_true, List.isEmpty_iff]

theorem stale_watchdog_characterization_witness :
    staleCheckFires true [tripOld] (some 1000) = true :=
  (stale_watchdog_characterization true [tripOld] (some 1000)).mpr
    ⟨rfl, by decide, 1000, rfl, tripOld, by decide, by decide⟩

/-- The configured stop registry: `stop_ids_` (ordered) and `stop_names_`
of `TransitTracker`. -/
structure Registry where
  stop_ids : List (List Char)
  stop_names : List (List Char × List Char)
deriving DecidableEq, Repr

/-- The pagination state fields of `TransitTracker`
(transit_tracker.h lines 102-105). -/
structure PagState where
  current_stop_index : Nat
  current_subpage_index : Nat
  total_subpages_for_current_stop : Nat
  last_displayed_stop_name : List Char
deriving DecidableEq, Repr

/-- The two sub-pages `draw_current_page` can render. -/
inductive Page where
  | stopNamePage
  | schedulePage
deriving DecidableEq, Repr

/-- Embeds `TransitTracker::next_stop` (transit_tracker.cpp lines
450-469): advance to the next stop with wrap-around, show the name page
only when the new stop's display name differs from the last displayed
one, and reset the subpage index. A missing map entry reads as the empty
string (`std::map::operator[]` default-constructs the value);
`stopNameAt` embeds the display-name read `stop_names_[stop_ids_[idx]]`. -/
def stopNameAt (reg : Registry) (idx : Nat) : List Char :=
  (lookupA reg.stop_names (reg.stop_ids.getD idx [])).getD []

/-- Embeds the stop-advance part of `TransitTracker::next_stop`; see
`stopNameAt` for the name read. -/
def next_stop (reg : Registry) (s : PagState) : PagState :=
  if reg.stop_ids = [] then s
  else
    let idx := (s.current_stop_index + 1) % reg.stop_ids.length
    let name := stopNameAt reg idx
    if name = s.last_displayed_stop_name then
      { s with current_stop_index := idx,
               total_subpages_for_current_stop := 1,
               current_subpage_index := 0 }
    else
      { current_stop_index := idx,
        current_subpage_index := 0,
        total_subpages_for_current_stop := 2,
        last_displayed_stop_name := name }

/-- Embeds `TransitTracker::draw_current_page` (transit_tracker.cpp lines
471-482): which page is rendered for the current pagination state. -/
def draw_current_page (s : PagState) : Page :=
  if s.total_subpages_for_current_stop = 1 then .schedulePage
  else if s.current_subpage_index = 0 then .stopNamePage
  else .schedulePage

/-- Embeds the body of `TransitTracker::tick` when the elapsed time has
reached the current page duration (transit_tracker.cpp lines 486-502):
advance the subpage (moving to the next stop when the subpages of the
current stop are exhausted), draw the page of the new state, and choose
the new page duration (8000 ms for a schedule page, 5000 ms for a stop
name page). Returns the new state, the page drawn, and the duration. -/
def tickExpired (reg : Registry) (s : PagState) : PagState × Page × Nat :=
  let s1 : PagState := { s with current_subpage_index := s.current_subpage_index + 1 }
  let s2 := if s1.total_subpages_for_current_stop ≤ s1.current_subpage_index
            then next_stop reg s1 else s1
  (s2, draw_current_page s2,
   if s2.total_subpages_for_current_stop = 1 ∨ s2.current_subpage_index = 1
   then 8000 else 5000)

/-- C9: when a tick enters a new stop (the expired subpage was the last one
of the previous stop), a visit whose `total_subpages_for_current_stop` is 2
renders exactly [name page, schedule page] with durations 5000 ms then
8000 ms (and the following tick leaves the stop), a visit whose total is 1
renders exactly [schedule page] with duration 8000 ms (and the following
tick leaves the stop); the name page is rendered only when the total is 2
and the subpage index is 0. -/
theorem pagination_visit_pages (reg : Registry) (s : PagState)
    (hreg : reg.stop_ids ≠ [])
    (hadv : s.total_subpages_for_current_stop ≤ s.current_subpage_index + 1) :
    ((tickExpired reg s).1.total_subpages_for_current_stop = 2 →
       (tickExpired reg s).2.1 = Page.stopNamePage
       ∧ (tickExpired reg s).2.2 = 5000
       ∧ (tickExpired reg (tickExpired reg s).1).2.1 = Page.schedulePage
       ∧ (tickExpired reg (tickExpired reg s).1).2.2 = 8000
       ∧ (tickExpired reg (tickExpired reg s).1).1.current_stop_index
           = (tickExpired reg s).1.current_stop_index
       ∧ (tickExpired reg (tickExpired reg s).1).1.total_subpages_for_current_stop
           ≤ (tickExpired reg (tickExpired reg s).1).1.current_subpage_index + 1)
    ∧ ((tickExpired reg s).1.total_subpages_for_current_stop = 1 →
       (tickExpired reg s).2.1 = Page.schedulePage
       ∧ (tickExpired reg s).2.2 = 8000
       ∧ (tickExpired reg s).1.total_subpages_for_current_stop
           ≤ (tickExpired reg s).1.current_subpage_index + 1)
    ∧ (∀ s2 : PagState,
        s2.total_subpages_for_current_stop = 1
          ∨ s2.total_subpages_for_current_stop = 2 →
        (draw_current_page s2 = Page.stopNamePage ↔
          s2.total_subpages_for_current_stop = 2 ∧ s2.current_subpage_index = 0)) := by
  have hdraw : ∀ s2 : PagState,
      s2.total_subpages_for_current_stop = 1
        ∨ s2.total_subpages_for_current_stop = 2 →
      (draw_current_page s2 = Page.stopNamePage ↔
        s2.total_subpages_for_current_stop = 2 ∧ s2.current_subpage_index = 0) := by
    intro s2 h
    rcases h with h | h <;>
      by_cases hz : s2.current_subpage_index = 0 <;>
        simp [draw_current_page, h, hz]
  refine ⟨?_, ?_, hdraw⟩ <;>
    by_cases hname : stopNameAt reg ((s.current_stop_index + 1) % reg.stop_ids.length)
        = s.last_displayed_stop_name <;>
      simp [tickExpired, next_stop, draw_current_page, hreg, hadv, hname]

/-- Concrete registry with one stop, used by the pagination witness. -/
def regW : Registry := { stop_ids := [['a']], stop_names := [(['a'], ['A'])] }

/-- Concrete pagination state about to leave its (only) subpage. -/
def sW : PagState :=
  { current_stop_index := 0, current_subpage_index := 0,
    total_subpages_for_current_stop := 1, last_displayed_stop_name := [] }

theorem pagination_visit_pages_witness :
    (tickExpired regW sW).2.1 = Page.stopNamePage
    ∧ (tickExpired regW sW).2.2 = 5000 := by
  have h := (pagination_visit_pages regW sW (by decide) (by decide)).1 (by decide)
  exact ⟨h.1, h.2.1⟩

/-- Modelled from the spec: `split` from string_utils.h is not under src/
(only its callers are); per the configuration surface of the spec
(abbreviation rules as `from;to` lines, route style rules as
`route_id;name;hex_color` lines) it is the usual delimiter split, turning
a string into the list of its delimiter-separated fields. -/
def splitOn (d : Char) : List Char → List (List Char)
  | [] => [[]]
  | c :: rest =>
    match splitOn d rest with
    | [] => [[]]
    | f :: fs => if c = d then [] :: f :: fs else (c :: f) :: fs

/-- The `from;to` pair of one abbreviation line, or `none` when the line
does not split into exactly two fields. -/
def parseAbbrevLine (line : List Char) : Option (List Char × List Char) :=
  match splitOn ';' line with
  | [a, b] => some (a, b)
  | _ => none

/-- The `route_id;name;hex_color` entry of one route style line, or `none`
when the line does not split into exactly three fields. -/
def parseStyleLine (line : List Char) : Option (List Char × RouteStyle) :=
  match splitOn ';' line with
  | [a, b, c] => some (a, { name := b, color := colorOf (parseHexNat c) })
  | _ => none

/-- Embeds the loop body of `set_abbreviations_from_text`
(transit_tracker.cpp lines 318-328): a line with exactly two
semicolon-separated fields is added via `add_abbreviation`
(`abbreviations_[from] = to`); any other line is skipped. -/
def abbrevLineStep (acc : List (List Char × List Char)) (line : List Char) :
    List (List Char × List Char) :=
  match splitOn ';' line with
  | [a, b] => mapInsert acc a b
  | _ => acc

/-- Embeds the loop body of `set_route_styles_from_text`
(transit_tracker.cpp lines 330-341): a line with exactly three
semicolon-separated fields is added via `add_route_style` with the
base-16-parsed color; any other line is skipped. -/
def styleLineStep (acc : List (List Char × RouteStyle)) (line : List Char) :
    List (List Char × RouteStyle) :=
  match splitOn ';' line with
  | [a, b, c] => mapInsert acc a { name := b, color := colorOf (parseHexNat c) }
  | _ => acc

/-- Embeds `TransitTracker::set_abbreviations_from_text`: the previous
table (`prev`) is cleared first, then the newline-split lines are
processed in order. -/
def set_abbreviations_from_text (_prev : List (List Char × List Char))
    (text : List Char) : List (List Char × List Char) :=
  (splitOn '\n' text).foldl abbrevLineStep []

/-- Embeds `TransitTracker::set_route_styles_from_text`: the previous
table (`prev`) is cleared first, then the newline-split lines are
processed in order. -/
def set_route_styles_from_text (_prev : List (List Char × RouteStyle))
    (text : List Char) : List (List Char × RouteStyle) :=
  (splitOn '\n' text).foldl styleLineStep []

theorem abbrevLineStep_eq (acc : List (List Char × List Char)) (line : List Char) :
    abbrevLineStep acc line
      = ((parseAbbrevLine line).map (fun kv => mapInsert acc kv.1 kv.2)).getD acc := by
  unfold abbrevLineStep parseAbbrevLine
  cases splitOn ';' line with
  | nil => rfl
  | cons f fs =>
    cases fs with
    | nil => rfl
    | cons g gs =>
      cases gs with
      | nil => rfl
      | cons _ _ => rfl

theorem styleLineStep_eq (acc : List (List Char × RouteStyle)) (line : List Char) :
    styleLineStep acc line
      = ((parseStyleLine line).map (fun kv => mapInsert acc kv.1 kv.2)).getD acc := by
  unfold styleLineStep parseStyleLine
  cases splitOn ';' line with
  | nil => rfl
  | cons f fs =>
    cases fs with
    | nil => rfl
    | cons g gs =>
      cases gs with
      | nil => rfl
      | cons h hs =>
        cases hs with
        | nil => rfl
        | cons _ _ => rfl

theorem abbrev_fold_filterMap (lines : List (List Char)) :
    ∀ acc, lines.foldl abbrevLineStep acc
      = (lines.filterMap parseAbbrevLine).foldl
          (fun acc kv => mapInsert acc kv.1 kv.2) acc := by
  induction lines with
  | nil => intro acc; rfl
  | cons line rest ih =>
    intro acc
    rw [List.foldl_cons, List.filterMap_cons, abbrevLineStep_eq]
    cases hp : parseAbbrevLine line with
    | none => exact ih acc
    | some kv =>
      rw [List.foldl_cons]
      exact ih (mapInsert acc kv.1 kv.2)

theorem style_fold_filterMap (lines : List (List Char)) :
    ∀ acc, lines.foldl styleLineStep acc
      = (lines.filterMap parseStyleLine).foldl
          (fun acc kv => mapInsert acc kv.1 kv.2) acc := by
  induction lines with
  | nil => intro acc; rfl
  | cons line rest ih =>
    intro acc
    rw [List.foldl_cons, List.filterMap_cons, styleLineStep_eq]
    cases hp : parseStyleLine line with
    | none => exact ih acc
    | some kv =>
      rw [List.foldl_cons]
      exact ih (mapInsert acc kv.1 kv.2)

/-- C10: loading abbreviations (resp. route styles) from text first clears
the previous table (the result does not depend on it), then each
newline-separated line contributes an entry exactly when it splits into 2
(resp. 3) semicolon-separated fields, and a line with a different field
count is skipped without affecting the entries contributed by the other
lines of the same text. -/
theorem config_text_loading (prev1 prev2 : List (List Char × List Char))
    (sprev1 sprev2 : List (List Char × RouteStyle)) (text : List Char) :
    (set_abbreviations_from_text prev1 text = set_abbreviations_from_text prev2 text)
    ∧ (set_abbreviations_from_text prev1 text
        = ((splitOn '\n' text).filterMap parseAbbrevLine).foldl
            (fun acc kv => mapInsert acc kv.1 kv.2) [])
    ∧ (∀ (pre post : List (List Char)) (bad : List Char) (acc : List (List Char × List Char)),
        parseAbbrevLine bad = none →
        (pre ++ bad :: post).foldl abbrevLineStep acc
          = (pre ++ post).foldl abbrevLineStep acc)
    ∧ (set_route_styles_from_text sprev1 text = set_route_styles_from_text sprev2 text)
    ∧ (set_route_styles_from_text sprev1 text
        = ((splitOn '\n' text).filterMap parseStyleLine).foldl
            (fun acc kv => mapInsert acc kv.1 kv.2) [])
    ∧ (∀ (pre post : List (List Char)) (bad : List Char) (acc : List (List Char × RouteStyle)),
        parseStyleLine bad = none →
        (pre ++ bad :: post).foldl styleLineStep acc
          = (pre ++ post).foldl styleLineStep acc) := by
  refine ⟨rfl, abbrev_fold_filterMap _ _, ?_, rfl, style_fold_filterMap _ _, ?_⟩
  · intro pre post bad acc hbad
    rw [List.foldl_append, List.foldl_append, List.foldl_cons,
      abbrevLineStep_eq, hbad]
    rfl
  · intro pre post bad acc hbad
    rw [List.foldl_append, List.foldl_append, List.foldl_cons,
      styleLineStep_eq, hbad]
    rfl

theorem config_text_loading_witness :
    set_abbreviations_from_text [(['x'], ['y'])]
        ['a', ';', 'b', '\n', 'q', '\n', 'c', ';', 'd']
      = set_abbreviations_from_text []
        ['a', ';', 'b', '\n', 'q', '\n', 'c', ';', 'd'] :=
  (config_text_loading [(['x'], ['y'])] [] [] []
    ['a', ';', 'b', '\n', 'q', '\n', 'c', ';', 'd']).1

/-- One micro-operation of the cache-replace critical section performed by
the message handler under `schedule_state_.mutex` (transit_tracker.cpp
lines 154-198): acquire the mutex, `trips.clear()`, one `push_back` per
decoded trip, release the mutex. -/
inductive WOp where
  | lock
  | clear
  | push (t : Trip)
  | unlock
deriving DecidableEq, Repr

/-- The micro-operation sequence of one cache replace that writes the trip
list `ts`. -/
def writerProg (ts : List Trip) : List WOp :=
  WOp.lock :: WOp.clear :: (ts.map WOp.push ++ [WOp.unlock])

/-- An interleaving state: the writer's remaining micro-operations, the
cache contents, whether the writer holds the mutex, and the snapshots
observed so far by readers. -/
structure CacheSt where
  rem : List WOp
  cache : List Trip
  locked : Bool
  observed : List (List Trip)
deriving DecidableEq, Repr

/-- Interleaved execution of the replace against concurrent readers. The
writer's micro-steps respect the mutex (the acquire blocks until the mutex
is free; the mutating steps happen while holding it). A reader observation
is one whole locked read — `draw_schedule`'s filtered read
(transit_tracker.cpp lines 566-577) and the watchdog's staleness scan both
hold `schedule_state_.mutex` for the duration of the read, so the writer
cannot interleave inside it and the read collapses to a single step that
requires the mutex to be free. -/
inductive CStep : CacheSt → CacheSt → Prop where
  | wlock {r : List WOp} {c : List Trip} {obs : List (List Trip)} :
      CStep ⟨WOp.lock :: r, c, false, obs⟩ ⟨r, c, true, obs⟩
  | wclear {r : List WOp} {c : List Trip} {obs : List (List Trip)} :
      CStep ⟨WOp.clear :: r, c, true, obs⟩ ⟨r, [], true, obs⟩
  | wpush {t : Trip} {r : List WOp} {c : List Trip} {obs : List (List Trip)} :
      CStep ⟨WOp.push t :: r, c, true, obs⟩ ⟨r, c ++ [t], true, obs⟩
  | wunlock {r : List WOp} {c : List Trip} {obs : List (List Trip)} :
      CStep ⟨WOp.unlock :: r, c, true, obs⟩ ⟨r, c, false, obs⟩
  | readObs {r : List WOp} {c : List Trip} {obs : List (List Trip)} :
      CStep ⟨r, c, false, obs⟩ ⟨r, c, false, obs ++ [c]⟩

/-- Reachability by interleaved steps. -/
inductive Reach : CacheSt → CacheSt → Prop where
  | refl (s : CacheSt) : Reach s s
  | tail {a b c : CacheSt} : Reach a b → CStep b c → Reach a c

/-- Invariant of a replace of snapshot `old` by snapshot `ts`: every
observation made so far is a complete snapshot, and the writer is in one
of four phases — not yet locked (cache still old), locked before the
clear (cache still old), locked after the clear with a prefix of the new
snapshot written, or done (cache is the new snapshot, mutex free). -/
def ReplaceInv (old ts : List Trip) (s : CacheSt) : Prop :=
  (∀ o ∈ s.observed, o = old ∨ o = ts)
  ∧ ((s.rem = writerProg ts ∧ s.locked = false ∧ s.cache = old)
     ∨ (s.rem = WOp.clear :: (ts.map WOp.push ++ [WOp.unlock])
        ∧ s.locked = true ∧ s.cache = old)
     ∨ (∃ k, k ≤ ts.length ∧ s.rem = (ts.drop k).map WOp.push ++ [WOp.unlock]
        ∧ s.locked = true ∧ s.cache = ts.take k)
     ∨ (s.rem = [] ∧ s.locked = false ∧ s.cache = ts))

theorem take_push_of_drop {α : Type} (l : List α) (k : Nat) (a : α) (rest : List α)
    (h : l.drop k = a :: rest) :
    l.take (k + 1) = l.take k ++ [a] ∧ l.drop (k + 1) = rest ∧ k < l.length := by
  induction l generalizing k with
  | nil =>
    rw [List.drop_nil] at h
    exact absurd h (by simp)
  | cons x xs ih =>
    cases k with
    | zero =>
      have h2 : x :: xs = a :: rest := h
      injection h2 with h2a h2b
      subst h2a
      subst h2b
      exact ⟨rfl, rfl, by simp⟩
    | succ k2 =>
      have h2 : xs.drop k2 = a :: rest := h
      obtain ⟨t1, t2, t3⟩ := ih k2 h2
      refine ⟨?_, t2, ?_⟩
      · show x :: xs.take (k2 + 1) = (x :: xs.take k2) ++ [a]
        rw [t1]
        rfl
      · simp only [List.length_cons]
        omega

theorem replaceInv_step (old ts : List Trip) {s s2 : CacheSt}
    (hI : ReplaceInv old ts s) (hs : CStep s s2) : ReplaceInv old ts s2 := by
  obtain ⟨hobs, hphase⟩ := hI
  cases hs with
  | wlock =>
    refine ⟨hobs, ?_⟩
    rcases hphase with ⟨h1, h2, h3⟩ | ⟨h1, h2, h3⟩ | ⟨k, hk, h1, h2, h3⟩ | ⟨h1, h2, h3⟩
    · rw [writerProg] at h1
      injection h1 with _ h1
      exact Or.inr (Or.inl ⟨h1, rfl, h3⟩)
    · exact absurd h1 (by simp)
    · exact absurd h2 (by simp)
    · exact absurd h1 (by simp)
  | wclear =>
    refine ⟨hobs, ?_⟩
    rcases hphase with ⟨h1, h2, h3⟩ | ⟨h1, h2, h3⟩ | ⟨k, hk, h1, h2, h3⟩ | ⟨h1, h2, h3⟩
    · rw [writerProg] at h1
      exact absurd h1 (by simp)
    · injection h1 with _ h1
      exact Or.inr (Or.inr (Or.inl ⟨0, by omega, by simpa using h1, rfl, rfl⟩))
    · exact absurd h1 (by cases hd : ts.drop k <;> simp [hd])
    · exact absurd h1 (by simp)
  | wpush =>
    refine ⟨hobs, ?_⟩
    rcases hphase with ⟨h1, h2, h3⟩ | ⟨h1, h2, h3⟩ | ⟨k, hk, h1, h2, h3⟩ | ⟨h1, h2, h3⟩
    · rw [writerProg] at h1
      exact absurd h1 (by simp)
    · exact absurd h1 (by simp)
    · cases hd : ts.drop k with
      | nil =>
        rw [hd] at h1
        exact absurd h1 (by simp)
      | cons a rest =>
        rw [hd] at h1
        simp only [List.map_cons, List.cons_append] at h1
        injection h1 with h1a h1b
        injection h1a with h1a
        obtain ⟨t1, t2, t3⟩ := take_push_of_drop ts k a rest hd
        refine Or.inr (Or.inr (Or.inl ⟨k + 1, by omega, ?_, rfl, ?_⟩))
        · rw [t2, h1b]
        · rw [t1, h1a, ← h3]
    · exact absurd h1 (by simp)
  | wunlock =>
    refine ⟨hobs, ?_⟩
    rcases hphase with ⟨h1, h2, h3⟩ | ⟨h1, h2, h3⟩ | ⟨k, hk, h1, h2, h3⟩ | ⟨h1, h2, h3⟩
    · rw [writerProg] at h1
      exact absurd h1 (by simp)
    · exact absurd h1 (by simp)
    · cases hd : ts.drop k with
      | nil =>
        rw [hd] at h1
        simp only [List.map_nil, List.nil_append] at h1
        injection h1 with _ h1
        have hlen : ts.length ≤ k := by
          by_contra hlt
          have : ts.drop k ≠ [] := by
            apply List.ne_nil_of_length_pos
            rw [List.length_drop]
            omega
          exact this hd
        have hkeq : k = ts.length := by omega
        refine Or.inr (Or.inr (Or.inr ⟨h1, rfl, ?_⟩))
        rw [h3, hkeq, List.take_length]
      | cons a rest =>
        rw [hd] at h1
        exact absurd h1 (by simp)
    · exact absurd h1 (by simp)
  | readObs =>
    rename_i r c obs
    refine ⟨?_, ?_⟩
    · intro o ho
      rcases List.mem_append.mp ho with ho | ho
      · exact hobs o ho
      · have hoc : o = c := by simpa using ho
        subst hoc
        rcases hphase with ⟨h1, h2, h3⟩ | ⟨h1, h2, h3⟩ | ⟨k, hk, h1, h2, h3⟩ | ⟨h1, h2, h3⟩
        · exact Or.inl h3
        · exact absurd h2 (by simp)
        · exact absurd h2 (by simp)
        · exact Or.inr h3
    · rcases hphase with ⟨h1, h2, h3⟩ | ⟨h1, h2, h3⟩ | ⟨k, hk, h1, h2, h3⟩ | ⟨h1, h2, h3⟩
      · exact Or.inl ⟨h1, rfl, h3⟩
      · exact absurd h2 (by simp)
      · exact absurd h2 (by simp)
      · exact Or.inr (Or.inr (Or.inr ⟨h1, rfl, h3⟩))

/-- C1: the cache replace performed by the message handler is atomic with
respect to the readers (the render pipeline's filtered read in
`draw_schedule` and the watchdog's staleness scan, both of which hold the
cache mutex for the whole read): along every interleaving of the replace
of the old snapshot by a new one, every snapshot observed by a reader is
the complete old snapshot or the complete new snapshot, never a mixture
of trips from both. -/
theorem cache_replace_atomic (old ts : List Trip) (s : CacheSt)
    (h : Reach ⟨writerProg ts, old, false, []⟩ s) :
    ∀ o ∈ s.observed, o = old ∨ o = ts := by
  have hinv : ReplaceInv old ts s := by
    induction h with
    | refl => exact ⟨by simp, Or.inl ⟨rfl, rfl, rfl⟩⟩
    | tail hr hstep ih => exact replaceInv_step old ts ih hstep
  exact hinv.1

/-- Two distinct concrete trips for the atomicity witness. -/
def tripA : Trip := { tripOld with route_id := ['a'] }

def tripB : Trip := { tripOld with route_id := ['b'] }

theorem cache_replace_atomic_witness :
    ([tripA] = [tripA] ∨ [tripA] = [tripB]) :=
  cache_replace_atomic [tripA] [tripB]
    ⟨writerProg [tripB], [tripA], false, [] ++ [[tripA]]⟩
    (Reach.tail (Reach.refl _) CStep.readObs)
    [tripA] (by simp)

end TransitTracker
